import Mathlib

/-!
Verification of the heart-failure-analysis repository.

This file shallowly embeds the two scripts of the repository:

* `scripts/model_evaluation.py` (the Evaluator): loads a fitted pipeline and a
  test CSV, cross-tabulates actual vs. predicted labels with `pd.crosstab`,
  computes accuracy / precision / recall / f1 with scikit-learn, and writes
  `confusion_matrix.csv` and `test_scores.csv`.
* `src/correlation_analysis.py` (the Correlation Reporter): casts binary
  columns to boolean, fits a column transformer (StandardScaler on numeric
  columns, OneHotEncoder with `drop='if_binary'` and
  `handle_unknown='ignore'` on binary columns) on the training data, plots a
  Pearson correlation heatmap of the transformed training data, and contains a
  deepchecks-based feature-feature correlation validation whose call in `main`
  is commented out.

Labels are embedded as integers, exact data as rationals, and quantities the
scripts compute with floating-point square roots (Pearson correlation,
standard deviation) as real numbers.  Machine floating point itself is not
modelled; the numeric claims below are settled over exact arithmetic.
-/

/-! ## Label pairs and the confusion matrix (`pd.crosstab`)

`model_evaluation.py` builds a frame whose relevant columns are
`DEATH_EVENT` (actual) and `predicted`; a row of that frame is embedded as a
pair `(actual, predicted)`. -/

/-- A row of the predictions frame: `(DEATH_EVENT, predicted)`. -/
abbrev LabelPair := ℤ × ℤ

/-- The number of rows whose actual label is `a` and predicted label is `p`:
one cell of `pd.crosstab`. -/
def cellCount (pairs : List LabelPair) (a p : ℤ) : ℕ :=
  pairs.countP fun x => decide (x.1 = a ∧ x.2 = p)

/-- The sorted distinct values of a column; `pd.crosstab` uses the sorted
unique observed values of each of its two arguments as axis labels. -/
def sortedUnique (l : List ℤ) : List ℤ :=
  List.insertionSort (· ≤ ·) l.dedup

/-- The result of `pd.crosstab(actual, predicted, rownames=["Actual"],
colnames=["Predicted"])`: axis names, the observed row/column labels, and the
count in each cell. -/
structure Crosstab where
  rowName : String
  colName : String
  rowLabels : List ℤ
  colLabels : List ℤ
  cell : ℤ → ℤ → ℕ

/-- `pd.crosstab` on the list of `(actual, predicted)` rows, as called at
lines 39-43 of `scripts/model_evaluation.py`. -/
def crosstab (pairs : List LabelPair) : Crosstab :=
  { rowName := "Actual"
    colName := "Predicted"
    rowLabels := sortedUnique (pairs.map Prod.fst)
    colLabels := sortedUnique (pairs.map Prod.snd)
    cell := cellCount pairs }

/-- The sum of all cells of the crosstab (over its observed labels). -/
def cellTotal (ct : Crosstab) : ℕ :=
  (ct.rowLabels.map fun a => (ct.colLabels.map fun p => ct.cell a p).sum).sum

/-! ## scikit-learn metrics

`accuracy_score`, `precision_score`, `recall_score`, `f1_score` with the
library defaults used by the script: positive label `1`, and the
`zero_division` convention that an undefined ratio is reported as `0`. -/

/-- True positives: actual `1`, predicted `1`. -/
def truePos (pairs : List LabelPair) : ℕ :=
  pairs.countP fun x => decide (x.1 = 1 ∧ x.2 = 1)

/-- False positives: predicted `1`, actual not `1`. -/
def falsePos (pairs : List LabelPair) : ℕ :=
  pairs.countP fun x => decide (¬x.1 = 1 ∧ x.2 = 1)

/-- False negatives: actual `1`, predicted not `1`. -/
def falseNeg (pairs : List LabelPair) : ℕ :=
  pairs.countP fun x => decide (x.1 = 1 ∧ ¬x.2 = 1)

/-- `sklearn.metrics.accuracy_score`: fraction of rows whose prediction
equals the actual label. -/
def accuracy_score (pairs : List LabelPair) : ℚ :=
  ((pairs.countP fun x => decide (x.1 = x.2) : ℕ) : ℚ) / (pairs.length : ℚ)

/-- `sklearn.metrics.precision_score` with `pos_label=1`: `TP/(TP+FP)`,
reported as `0` when there are no positive predictions. -/
def precision_score (pairs : List LabelPair) : ℚ :=
  if truePos pairs + falsePos pairs = 0 then 0
  else (truePos pairs : ℚ) / ((truePos pairs : ℚ) + (falsePos pairs : ℚ))

/-- `sklearn.metrics.recall_score` with `pos_label=1`: `TP/(TP+FN)`,
reported as `0` when there are no actual positives. -/
def recall_score (pairs : List LabelPair) : ℚ :=
  if truePos pairs + falseNeg pairs = 0 then 0
  else (truePos pairs : ℚ) / ((truePos pairs : ℚ) + (falseNeg pairs : ℚ))

/-- `sklearn.metrics.f1_score` with `pos_label=1`: `2TP/(2TP+FP+FN)`,
reported as `0` when the denominator is `0`. -/
def f1_score (pairs : List LabelPair) : ℚ :=
  if 2 * truePos pairs + falsePos pairs + falseNeg pairs = 0 then 0
  else (2 * truePos pairs : ℚ) /
    ((2 * truePos pairs : ℚ) + (falsePos pairs : ℚ) + (falseNeg pairs : ℚ))

/-- The harmonic mean of precision and recall, with the convention that it is
`0` when both arguments are `0` (the spec's definition of F1). -/
def harmonicMean (p r : ℚ) : ℚ :=
  if p + r = 0 then 0 else 2 * p * r / (p + r)

/-! ## The Evaluator (`scripts/model_evaluation.py`, `main`) -/

/-- The single-row `test_scores.csv` table, columns in the order written by
the script: accuracy, precision, recall, f1. -/
structure TestScores where
  accuracy : ℚ
  precision : ℚ
  recallValue : ℚ
  f1 : ℚ

/-- The two files the Evaluator writes: `confusion_matrix.csv` and
`test_scores.csv`. -/
structure EvalOutputs where
  confusionMatrix : Crosstab
  testScores : TestScores

/-- Global interpreter state touched by the Evaluator: `np.random.seed(seed)`
sets the NumPy RNG state; nothing later in the script reads it. -/
structure EvalState where
  npRandomState : ℤ

/-- Lines 39-52 of `scripts/model_evaluation.py`, given the actual labels
(the `DEATH_EVENT` column) and the predicted labels (the `predicted`
column). -/
def evalOutputsOf (actual predicted : List ℤ) : EvalOutputs :=
  let pairs := actual.zip predicted
  { confusionMatrix := crosstab pairs
    testScores :=
      { accuracy := accuracy_score pairs
        precision := precision_score pairs
        recallValue := recall_score pairs
        f1 := f1_score pairs } }

/-- The body of `main` in `scripts/model_evaluation.py`: seed the NumPy RNG,
read the test data, predict with the deserialized pipeline, and produce the
two output tables.  `test` is the test frame (rows of some type `α`),
`deathEvent` reads a row's `DEATH_EVENT` column, and `predict` is the fitted
pipeline's inference on the whole frame. -/
def model_evaluation_main {α : Type} (seed : ℤ) (test : List α)
    (deathEvent : α → ℤ) (predict : List α → List ℤ) :
    EvalState × EvalOutputs :=
  ({ npRandomState := seed }, evalOutputsOf (test.map deathEvent) (predict test))

/-! ## Claims C2 and C6 -/

/-- C2: for every test dataset and deterministic fitted pipeline, any two
values of the Evaluator's `--seed` parameter produce identical
`confusion_matrix.csv` and `test_scores.csv` contents: the seed only sets the
unused NumPy RNG state and has no observable effect on either output. -/
theorem evaluator_seed_has_no_effect {α : Type} (seed₁ seed₂ : ℤ)
    (test : List α) (deathEvent : α → ℤ) (predict : List α → List ℤ) :
    (model_evaluation_main seed₁ test deathEvent predict).2 =
      (model_evaluation_main seed₂ test deathEvent predict).2 := rfl

/-- The zipped label pairs of the fixed 4-row scenario of the spec:
actual `[1,0,1,0]`, predicted `[1,0,0,0]`. -/
def scenarioPairs : List LabelPair := [(1, 1), (0, 0), (1, 0), (0, 0)]

/-- C6: on the fixed 4-row input with actual labels `[1,0,1,0]` and predicted
labels `[1,0,0,0]`, the Evaluator yields the confusion matrix
`{(1,1) ↦ 1, (1,0) ↦ 1, (0,0) ↦ 2, (0,1) ↦ 0}`, accuracy `0.75`,
precision `1.0`, recall `0.5`, and f1 `2/3 ≈ 0.667`. -/
theorem evaluator_fixed_four_row_scenario :
    (evalOutputsOf [1, 0, 1, 0] [1, 0, 0, 0]).confusionMatrix.cell 1 1 = 1 ∧
    (evalOutputsOf [1, 0, 1, 0] [1, 0, 0, 0]).confusionMatrix.cell 1 0 = 1 ∧
    (evalOutputsOf [1, 0, 1, 0] [1, 0, 0, 0]).confusionMatrix.cell 0 0 = 2 ∧
    (evalOutputsOf [1, 0, 1, 0] [1, 0, 0, 0]).confusionMatrix.cell 0 1 = 0 ∧
    (evalOutputsOf [1, 0, 1, 0] [1, 0, 0, 0]).testScores.accuracy = 3 / 4 ∧
    (evalOutputsOf [1, 0, 1, 0] [1, 0, 0, 0]).testScores.precision = 1 ∧
    (evalOutputsOf [1, 0, 1, 0] [1, 0, 0, 0]).testScores.recallValue = 1 / 2 ∧
    (evalOutputsOf [1, 0, 1, 0] [1, 0, 0, 0]).testScores.f1 = 2 / 3 := by
  have hzip : (([1, 0, 1, 0] : List ℤ).zip ([1, 0, 0, 0] : List ℤ)) =
      scenarioPairs := rfl
  have hTP : truePos scenarioPairs = 1 := by decide
  have hFP : falsePos scenarioPairs = 0 := by decide
  have hFN : falseNeg scenarioPairs = 1 := by decide
  have hCorrect :
      scenarioPairs.countP (fun x => decide (x.1 = x.2)) = 3 := by decide
  refine ⟨by decide, by decide, by decide, by decide, ?_, ?_, ?_, ?_⟩
  · show accuracy_score (([1, 0, 1, 0] : List ℤ).zip [1, 0, 0, 0]) = 3 / 4
    rw [hzip, accuracy_score, hCorrect]
    norm_num [scenarioPairs]
  · show precision_score (([1, 0, 1, 0] : List ℤ).zip [1, 0, 0, 0]) = 1
    rw [hzip, precision_score]
    rw [hTP, hFP]
    norm_num
  · show recall_score (([1, 0, 1, 0] : List ℤ).zip [1, 0, 0, 0]) = 1 / 2
    rw [hzip, recall_score]
    rw [hTP, hFN]
    norm_num
  · show f1_score (([1, 0, 1, 0] : List ℤ).zip [1, 0, 0, 0]) = 2 / 3
    rw [hzip, f1_score]
    rw [hTP, hFP, hFN]
    norm_num

/-! ## Structure of the crosstab axes -/

lemma sortedUnique_nodup (l : List ℤ) : (sortedUnique l).Nodup :=
  ((List.perm_insertionSort _ _).nodup_iff).2 (List.nodup_dedup l)

lemma mem_sortedUnique {a : ℤ} {l : List ℤ} : a ∈ sortedUnique l ↔ a ∈ l := by
  unfold sortedUnique
  rw [List.mem_insertionSort, List.mem_dedup]

lemma sum_map_ite_of_not_mem {α : Type} [DecidableEq α] {a : α} :
    ∀ d : List α, a ∉ d → (d.map fun x => if a = x then (1 : ℕ) else 0).sum = 0 := by
  intro d hd
  induction d with
  | nil => simp
  | cons b d ih =>
      simp only [List.mem_cons, not_or] at hd
      simp [if_neg hd.1, ih hd.2]

lemma sum_map_ite_of_mem {α : Type} [DecidableEq α] {a : α} :
    ∀ d : List α, d.Nodup → a ∈ d →
      (d.map fun x => if a = x then (1 : ℕ) else 0).sum = 1 := by
  intro d hd ha
  induction d with
  | nil => cases ha
  | cons b d ih =>
      rw [List.nodup_cons] at hd
      rcases List.mem_cons.1 ha with h | h
      · subst h
        simp [sum_map_ite_of_not_mem d hd.1]
      · have hab : a ≠ b := by rintro rfl; exact hd.1 h
        simp [if_neg hab, ih hd.2 h]

lemma cellCount_cons (x : LabelPair) (pairs : List LabelPair) (a p : ℤ) :
    cellCount (x :: pairs) a p =
      cellCount pairs a p + if x.1 = a ∧ x.2 = p then 1 else 0 := by
  simp [cellCount, List.countP_cons]

/-- Summing the crosstab cells over any duplicate-free axis lists that cover
the observed labels counts every row exactly once. -/
lemma cell_sum_eq_length :
    ∀ (pairs : List LabelPair) (R C : List ℤ), R.Nodup → C.Nodup →
      (∀ x ∈ pairs, x.1 ∈ R) → (∀ x ∈ pairs, x.2 ∈ C) →
      (R.map fun a => (C.map fun p => cellCount pairs a p).sum).sum =
        pairs.length := by
  intro pairs
  induction pairs with
  | nil => intro R C _ _ _ _; simp [cellCount]
  | cons x xs ih =>
      intro R C hR hC hmem1 hmem2
      have hx1 : x.1 ∈ R := hmem1 x (List.mem_cons_self x xs)
      have hx2 : x.2 ∈ C := hmem2 x (List.mem_cons_self x xs)
      have hinner : ∀ a : ℤ,
          (C.map fun p => cellCount (x :: xs) a p).sum =
            (C.map fun p => cellCount xs a p).sum +
              if x.1 = a then 1 else 0 := by
        intro a
        simp only [cellCount_cons, List.sum_map_add]
        congr 1
        by_cases h : x.1 = a
        · subst h
          simpa using sum_map_ite_of_mem C hC hx2
        · simp [h]
      calc (R.map fun a => (C.map fun p => cellCount (x :: xs) a p).sum).sum
          = (R.map fun a => (C.map fun p => cellCount xs a p).sum +
              if x.1 = a then 1 else 0).sum := by
            simp only [hinner]
        _ = (R.map fun a => (C.map fun p => cellCount xs a p).sum).sum +
              (R.map fun a => if x.1 = a then (1 : ℕ) else 0).sum := by
            rw [List.sum_map_add]
        _ = xs.length + 1 := by
            rw [ih R C hR hC (fun y hy => hmem1 y (List.mem_cons_of_mem x hy))
              (fun y hy => hmem2 y (List.mem_cons_of_mem x hy)),
              sum_map_ite_of_mem R hR hx1]
        _ = (x :: xs).length := by simp

/-- A duplicate-free list of integers all lying in `{0, 1}` has length at
most `2`, and length exactly `2` precisely when both `0` and `1` occur. -/
lemma binary_axis_length (l : List ℤ) (h : ∀ x ∈ l, x = 0 ∨ x = 1) :
    (sortedUnique l).length ≤ 2 ∧
      ((sortedUnique l).length = 2 ↔ ((0 : ℤ) ∈ l ∧ (1 : ℤ) ∈ l)) := by
  have hnd : (sortedUnique l).Nodup := sortedUnique_nodup l
  have hcard : (sortedUnique l).toFinset.card = (sortedUnique l).length :=
    List.toFinset_card_of_nodup hnd
  have hsub : (sortedUnique l).toFinset ⊆ ({0, 1} : Finset ℤ) := by
    intro x hx
    rcases h x (mem_sortedUnique.1 (List.mem_toFinset.1 hx)) with h0 | h1
    · simp [h0]
    · simp [h1]
  have hpair : ({0, 1} : Finset ℤ).card = 2 := by decide
  constructor
  · rw [← hcard]
    exact hpair ▸ Finset.card_le_card hsub
  · constructor
    · intro h2
      have heq : (sortedUnique l).toFinset = ({0, 1} : Finset ℤ) :=
        Finset.eq_of_subset_of_card_le hsub (by rw [hcard, h2, hpair])
      constructor
      · exact mem_sortedUnique.1 (List.mem_toFinset.1
          (heq ▸ (by decide : (0 : ℤ) ∈ ({0, 1} : Finset ℤ))))
      · exact mem_sortedUnique.1 (List.mem_toFinset.1
          (heq ▸ (by decide : (1 : ℤ) ∈ ({0, 1} : Finset ℤ))))
    · intro hb
      have hsub2 : ({0, 1} : Finset ℤ) ⊆ (sortedUnique l).toFinset := by
        intro x hx
        rcases Finset.mem_insert.1 hx with h0 | h1
        · exact List.mem_toFinset.2 (mem_sortedUnique.2 (h0 ▸ hb.1))
        · exact List.mem_toFinset.2
            (mem_sortedUnique.2 ((Finset.mem_singleton.1 h1) ▸ hb.2))
      have : ({0, 1} : Finset ℤ).card ≤ (sortedUnique l).length := by
        rw [← hcard]; exact Finset.card_le_card hsub2
      have hle : (sortedUnique l).length ≤ 2 := by
        rw [← hcard]
        exact hpair ▸ Finset.card_le_card hsub
      omega

/-! ## Claims C3 and C4 -/

/-- C3 counterexample: on the one-row input with actual label `0` and
predicted label `0` (binary labels where the value `1` never occurs),
`pd.crosstab` produces a 1×1 table, not a 2×2 one: absent label values are
dropped, refuting the claim that the confusion matrix always has exactly two
rows and two columns. -/
theorem confusion_matrix_not_always_two_by_two :
    (evalOutputsOf [0] [0]).confusionMatrix.rowLabels.length = 1 ∧
    (evalOutputsOf [0] [0]).confusionMatrix.colLabels.length = 1 := by
  decide

/-- C3 amended: for binary actual and predicted labels, the confusion matrix
is the cross-tabulation of actual vs. predicted labels with the row axis
named "Actual" and the column axis named "Predicted"; it has at most two rows
and two columns, with one row per observed actual value and one column per
observed predicted value — it is exactly 2×2 precisely when both label
values `0` and `1` occur among the actuals and among the predictions. -/
theorem confusion_matrix_axes (pairs : List LabelPair)
    (h : ∀ x ∈ pairs, (x.1 = 0 ∨ x.1 = 1) ∧ (x.2 = 0 ∨ x.2 = 1)) :
    (crosstab pairs).rowName = "Actual" ∧
    (crosstab pairs).colName = "Predicted" ∧
    (crosstab pairs).rowLabels.length ≤ 2 ∧
    (crosstab pairs).colLabels.length ≤ 2 ∧
    ((crosstab pairs).rowLabels.length = 2 ↔
      ((0 : ℤ) ∈ pairs.map Prod.fst ∧ (1 : ℤ) ∈ pairs.map Prod.fst)) ∧
    ((crosstab pairs).colLabels.length = 2 ↔
      ((0 : ℤ) ∈ pairs.map Prod.snd ∧ (1 : ℤ) ∈ pairs.map Prod.snd)) := by
  have hrow := binary_axis_length (pairs.map Prod.fst) (by
    intro x hx
    rcases List.mem_map.1 hx with ⟨y, hy, rfl⟩
    exact (h y hy).1)
  have hcol := binary_axis_length (pairs.map Prod.snd) (by
    intro x hx
    rcases List.mem_map.1 hx with ⟨y, hy, rfl⟩
    exact (h y hy).2)
  exact ⟨rfl, rfl, hrow.1, hcol.1, hrow.2, hcol.2⟩

/-- C3 witness: the amended claim instantiated on the fixed 4-row scenario
input, where both labels occur on both axes and the table is 2×2. -/
theorem confusion_matrix_axes_witness :
    (∀ x ∈ scenarioPairs, (x.1 = 0 ∨ x.1 = 1) ∧ (x.2 = 0 ∨ x.2 = 1)) ∧
    (crosstab scenarioPairs).rowLabels.length = 2 := by
  refine ⟨by decide, ?_⟩
  exact (confusion_matrix_axes scenarioPairs (by decide)).2.2.2.2.1.2
    (by decide)

/-- C4: for every test dataset with `N` rows and a pipeline producing one
prediction per row, the cells of the confusion matrix produced by the
Evaluator sum to exactly `N`: every row is counted in exactly one
actual/predicted cell. -/
theorem confusion_matrix_cells_sum_to_N {α : Type} (seed : ℤ) (test : List α)
    (deathEvent : α → ℤ) (predict : List α → List ℤ)
    (h : (predict test).length = test.length) :
    cellTotal
        (model_evaluation_main seed test deathEvent predict).2.confusionMatrix =
      test.length := by
  have hlen : ((test.map deathEvent).zip (predict test)).length = test.length := by
    rw [List.length_zip, List.length_map, h, Nat.min_self]
  show cellTotal (crosstab ((test.map deathEvent).zip (predict test))) = _
  rw [← hlen]
  exact cell_sum_eq_length _ _ _
    (sortedUnique_nodup _) (sortedUnique_nodup _)
    (fun x hx => mem_sortedUnique.2 (List.mem_map_of_mem Prod.fst hx))
    (fun x hx => mem_sortedUnique.2 (List.mem_map_of_mem Prod.snd hx))

/-- C4 witness: the cell-sum property instantiated on a concrete two-row test
set with a pipeline predicting `[0, 1]`. -/
theorem confusion_matrix_cells_sum_to_N_witness :
    ((fun _ : List ℤ => ([0, 1] : List ℤ)) [1, 0]).length =
        ([1, 0] : List ℤ).length ∧
    cellTotal
        (model_evaluation_main 123 [1, 0] id
          (fun _ : List ℤ => ([0, 1] : List ℤ))).2.confusionMatrix =
      ([1, 0] : List ℤ).length :=
  ⟨rfl, confusion_matrix_cells_sum_to_N 123 [1, 0] id
    (fun _ => [0, 1]) rfl⟩

/-! ## Claim C5: metric formulas and bounds -/

lemma precision_eq_zero_of_no_pos (pairs : List LabelPair)
    (h : truePos pairs + falsePos pairs = 0) : precision_score pairs = 0 := by
  rw [precision_score, if_pos h]

lemma precision_eq_zero_of_truePos_zero (pairs : List LabelPair)
    (h : truePos pairs = 0) : precision_score pairs = 0 := by
  rw [precision_score]
  split
  · rfl
  · rw [h]; simp

lemma recall_eq_zero_of_truePos_zero (pairs : List LabelPair)
    (h : truePos pairs = 0) : recall_score pairs = 0 := by
  rw [recall_score]
  split
  · rfl
  · rw [h]; simp

/-- `f1_score` coincides with the harmonic mean (with the `0`-convention) of
`precision_score` and `recall_score`. -/
lemma f1_eq_harmonicMean (pairs : List LabelPair) :
    f1_score pairs = harmonicMean (precision_score pairs) (recall_score pairs) := by
  rcases Nat.eq_zero_or_pos (truePos pairs) with hT | hT
  · rw [precision_eq_zero_of_truePos_zero pairs hT,
      recall_eq_zero_of_truePos_zero pairs hT, harmonicMean, f1_score, hT]
    simp
  · have hTF : truePos pairs + falsePos pairs ≠ 0 := by omega
    have hTN : truePos pairs + falseNeg pairs ≠ 0 := by omega
    have hD : 2 * truePos pairs + falsePos pairs + falseNeg pairs ≠ 0 := by omega
    have ha : (0 : ℚ) < (truePos pairs : ℚ) := by exact_mod_cast hT
    have hab : (0 : ℚ) < (truePos pairs : ℚ) + (falsePos pairs : ℚ) := by
      have : (0 : ℚ) ≤ (falsePos pairs : ℚ) := Nat.cast_nonneg _
      linarith
    have hac : (0 : ℚ) < (truePos pairs : ℚ) + (falseNeg pairs : ℚ) := by
      have : (0 : ℚ) ≤ (falseNeg pairs : ℚ) := Nat.cast_nonneg _
      linarith
    have hp : (0 : ℚ) < precision_score pairs := by
      rw [precision_score, if_neg hTF]
      exact div_pos ha hab
    have hr : (0 : ℚ) < recall_score pairs := by
      rw [recall_score, if_neg hTN]
      exact div_pos ha hac
    have hpr : precision_score pairs + recall_score pairs ≠ 0 :=
      ne_of_gt (add_pos hp hr)
    have hab' : ((truePos pairs : ℚ) + (falsePos pairs : ℚ)) ≠ 0 :=
      ne_of_gt hab
    have hac' : ((truePos pairs : ℚ) + (falseNeg pairs : ℚ)) ≠ 0 :=
      ne_of_gt hac
    have hD' : 2 * (truePos pairs : ℚ) + (falsePos pairs : ℚ) +
        (falseNeg pairs : ℚ) ≠ 0 := by
      exact_mod_cast hD
    have hpr' : (truePos pairs : ℚ) / ((truePos pairs : ℚ) + (falsePos pairs : ℚ)) +
        (truePos pairs : ℚ) / ((truePos pairs : ℚ) + (falseNeg pairs : ℚ)) ≠ 0 := by
      rw [precision_score, if_neg hTF, recall_score, if_neg hTN] at hpr
      exact hpr
    rw [f1_score, if_neg hD, harmonicMean, if_neg hpr,
      precision_score, if_neg hTF, recall_score, if_neg hTN]
    rw [div_eq_div_iff hD' hpr']
    field_simp
    ring

/-- C5: on every non-empty test dataset with binary labels, the Evaluator
metrics satisfy: accuracy is the fraction of correct predictions, precision
is `TP/(TP+FP)` and `0` when there are no positive predictions, recall is
`TP/(TP+FN)` and `0` when there are no actual positives, f1 is the harmonic
mean of precision and recall, all four values lie in `[0, 1]`, and f1 is `0`
whenever precision and recall are both `0`. -/
theorem evaluator_metric_properties (pairs : List LabelPair)
    (hne : pairs ≠ [])
    (hbin : ∀ x ∈ pairs, (x.1 = 0 ∨ x.1 = 1) ∧ (x.2 = 0 ∨ x.2 = 1)) :
    accuracy_score pairs =
      ((pairs.countP fun x => decide (x.1 = x.2) : ℕ) : ℚ) /
        (pairs.length : ℚ) ∧
    (truePos pairs + falsePos pairs = 0 → precision_score pairs = 0) ∧
    (truePos pairs + falsePos pairs ≠ 0 →
      precision_score pairs =
        (truePos pairs : ℚ) / ((truePos pairs : ℚ) + (falsePos pairs : ℚ))) ∧
    (truePos pairs + falseNeg pairs ≠ 0 →
      recall_score pairs =
        (truePos pairs : ℚ) / ((truePos pairs : ℚ) + (falseNeg pairs : ℚ))) ∧
    f1_score pairs =
      harmonicMean (precision_score pairs) (recall_score pairs) ∧
    (precision_score pairs = 0 → recall_score pairs = 0 →
      f1_score pairs = 0) ∧
    (0 ≤ accuracy_score pairs ∧ accuracy_score pairs ≤ 1) ∧
    (0 ≤ precision_score pairs ∧ precision_score pairs ≤ 1) ∧
    (0 ≤ recall_score pairs ∧ recall_score pairs ≤ 1) ∧
    (0 ≤ f1_score pairs ∧ f1_score pairs ≤ 1) := by
  refine ⟨rfl, fun h => precision_eq_zero_of_no_pos pairs h,
    fun h => by rw [precision_score, if_neg h],
    fun h => by rw [recall_score, if_neg h],
    f1_eq_harmonicMean pairs, ?_, ?_, ?_, ?_, ?_⟩
  · intro hp hr
    rw [f1_eq_harmonicMean pairs, hp, hr, harmonicMean]
    simp
  · constructor
    · exact div_nonneg (Nat.cast_nonneg _) (Nat.cast_nonneg _)
    · exact div_le_one_of_le₀
        (by exact_mod_cast List.countP_le_length _) (Nat.cast_nonneg _)
  · rw [precision_score]
    split
    · exact ⟨le_refl 0, zero_le_one⟩
    · constructor
      · exact div_nonneg (Nat.cast_nonneg _)
          (by positivity)
      · refine div_le_one_of_le₀ ?_ (by positivity)
        have : (0 : ℚ) ≤ (falsePos pairs : ℚ) := Nat.cast_nonneg _
        linarith
  · rw [recall_score]
    split
    · exact ⟨le_refl 0, zero_le_one⟩
    · constructor
      · exact div_nonneg (Nat.cast_nonneg _) (by positivity)
      · refine div_le_one_of_le₀ ?_ (by positivity)
        have : (0 : ℚ) ≤ (falseNeg pairs : ℚ) := Nat.cast_nonneg _
        linarith
  · rw [f1_score]
    split
    · exact ⟨le_refl 0, zero_le_one⟩
    · constructor
      · exact div_nonneg (by positivity) (by positivity)
      · refine div_le_one_of_le₀ ?_ (by positivity)
        have h1 : (0 : ℚ) ≤ (falsePos pairs : ℚ) := Nat.cast_nonneg _
        have h2 : (0 : ℚ) ≤ (falseNeg pairs : ℚ) := Nat.cast_nonneg _
        linarith

/-- C5 witness: the metric properties instantiated on the fixed 4-row
scenario input, which is non-empty and binary. -/
theorem evaluator_metric_properties_witness :
    (scenarioPairs ≠ [] ∧
      ∀ x ∈ scenarioPairs, (x.1 = 0 ∨ x.1 = 1) ∧ (x.2 = 0 ∨ x.2 = 1)) ∧
    f1_score scenarioPairs =
      harmonicMean (precision_score scenarioPairs)
        (recall_score scenarioPairs) :=
  ⟨⟨by decide, by decide⟩,
    (evaluator_metric_properties scenarioPairs (by decide)
      (by decide)).2.2.2.2.1⟩

/-! ## The Correlation Reporter: Pearson correlation

`plot_correlation_matrix` computes `scaled_train.corr()`, the matrix of
pairwise Pearson correlations between the transformed columns, and
`validate_feature_correlations` runs the deepchecks
`FeatureFeatureCorrelation` check over the same correlations.  A column is a
list of rationals; the correlation itself, which pandas computes with a
floating-point square root, is embedded as a real number. -/

/-- The arithmetic mean of a column. -/
def listMean (l : List ℚ) : ℚ := l.sum / (l.length : ℚ)

/-- The centered cross-product sum `Σ (xᵢ - x̄)(yᵢ - ȳ)` appearing in the
numerator (and, with `y := x`, in the denominator) of the Pearson
correlation. -/
def centeredDot (x y : List ℚ) : ℚ :=
  (List.zipWith (fun a b => (a - listMean x) * (b - listMean y)) x y).sum

/-- The Pearson correlation of two columns, as computed by
`DataFrame.corr()`: `Σ(x-x̄)(y-ȳ) / sqrt(Σ(x-x̄)² · Σ(y-ȳ)²)`. -/
noncomputable def pearsonCorr (x y : List ℚ) : ℝ :=
  (centeredDot x y : ℝ) /
    Real.sqrt ((centeredDot x x : ℝ) * (centeredDot y y : ℝ))

/-- The `(i, j)` entry of the correlation matrix of a list of columns. -/
noncomputable def corrMatrixEntry (cols : List (List ℚ)) (i j : ℕ) : ℝ :=
  pearsonCorr (cols.getD i []) (cols.getD j [])

lemma zipWith_centered_comm (mx my : ℚ) :
    ∀ x y : List ℚ,
      List.zipWith (fun a b => (a - mx) * (b - my)) x y =
        List.zipWith (fun b a => (b - my) * (a - mx)) y x
  | [], [] => rfl
  | [], _ :: _ => rfl
  | _ :: _, [] => rfl
  | a :: x, b :: y => by
      simp only [List.zipWith_cons_cons, zipWith_centered_comm mx my x y]
      rw [mul_comm]

lemma centeredDot_comm (x y : List ℚ) : centeredDot x y = centeredDot y x := by
  unfold centeredDot
  rw [zipWith_centered_comm]

lemma centeredDot_self_nonneg (x : List ℚ) : 0 ≤ centeredDot x x := by
  unfold centeredDot
  rw [List.zipWith_same]
  apply List.sum_nonneg
  intro a ha
  rcases List.mem_map.1 ha with ⟨b, _, rfl⟩
  exact mul_self_nonneg _

lemma pearsonCorr_comm (x y : List ℚ) : pearsonCorr x y = pearsonCorr y x := by
  unfold pearsonCorr
  rw [centeredDot_comm x y, mul_comm]

lemma pearsonCorr_self {x : List ℚ} (h : 0 < centeredDot x x) :
    pearsonCorr x x = 1 := by
  unfold pearsonCorr
  have h' : (0 : ℝ) < (centeredDot x x : ℝ) := by exact_mod_cast h
  rw [Real.sqrt_mul_self (le_of_lt h')]
  exact div_self (ne_of_gt h')

/-- C7: for every non-degenerate input (each involved column has nonzero
variance, i.e. a positive centered square sum), the correlation matrix
computed by the Correlation Reporter is symmetric — the `(i, j)` entry equals
the `(j, i)` entry — and every diagonal entry equals `1.0` within tolerance
`1e-9` (here it is exactly `1`). -/
theorem correlation_matrix_symmetric_unit_diagonal (cols : List (List ℚ))
    (i j : ℕ) (hdeg : ∀ c ∈ cols, 0 < centeredDot c c) :
    corrMatrixEntry cols i j = corrMatrixEntry cols j i ∧
    (i < cols.length →
      |corrMatrixEntry cols i i - 1| ≤ 1 / 1000000000) := by
  constructor
  · exact pearsonCorr_comm _ _
  · intro hi
    have hmem : cols.getD i [] ∈ cols := by
      rw [List.getD_eq_getElem cols [] hi]
      exact List.getElem_mem hi
    rw [corrMatrixEntry, pearsonCorr_self (hdeg _ hmem)]
    norm_num

/-- C7 witness: the symmetry and unit-diagonal property instantiated on the
concrete two-column input `[[0, 1], [0, 2]]`, whose columns both have
positive variance. -/
theorem correlation_matrix_symmetric_unit_diagonal_witness :
    (∀ c ∈ [[(0 : ℚ), 1], [(0 : ℚ), 2]], 0 < centeredDot c c) ∧
    (0 < ([[(0 : ℚ), 1], [(0 : ℚ), 2]] : List (List ℚ)).length ∧
      corrMatrixEntry [[(0 : ℚ), 1], [(0 : ℚ), 2]] 0 1 =
        corrMatrixEntry [[(0 : ℚ), 1], [(0 : ℚ), 2]] 1 0 ∧
      |corrMatrixEntry [[(0 : ℚ), 1], [(0 : ℚ), 2]] 0 0 - 1| ≤
        1 / 1000000000) := by
  have hdeg : ∀ c ∈ [[(0 : ℚ), 1], [(0 : ℚ), 2]], 0 < centeredDot c c := by
    intro c hc
    rcases List.mem_cons.1 hc with rfl | hc
    · norm_num [centeredDot, listMean]
    · rcases List.mem_cons.1 hc with rfl | hc
      · norm_num [centeredDot, listMean]
      · cases hc
  refine ⟨hdeg, by norm_num, ?_, ?_⟩
  · exact (correlation_matrix_symmetric_unit_diagonal _ 0 1 hdeg).1
  · exact (correlation_matrix_symmetric_unit_diagonal _ 0 0 hdeg).2
      (by norm_num)

/-! ## The correlation validation and its disabled call site (claim C1) -/

/-- Outcome of the final try/except block of `main` in
`src/correlation_analysis.py`: either the success message
"All feature-feature correlation checks passed." is echoed, or the
`ValueError` message is echoed to standard error and the process exits with
status 1. -/
inductive RunStatus where
  | passed
  | failedValidation (msg : String)
deriving DecidableEq

/-- All unordered pairs of distinct columns (each pair once), over which the
deepchecks `FeatureFeatureCorrelation` condition counts correlations above
the threshold. -/
def columnPairs : List (List ℚ) → List (List ℚ × List ℚ)
  | [] => []
  | c :: rest => rest.map (fun d => (c, d)) ++ columnPairs rest

open Classical in
/-- The number of distinct feature pairs whose absolute pairwise Pearson
correlation exceeds the threshold `t`. -/
noncomputable def violationCount (cols : List (List ℚ)) (t : ℝ) : ℕ :=
  (columnPairs cols).countP fun p => decide (t < |pearsonCorr p.1 p.2|)

/-- `validate_feature_correlations` in `src/correlation_analysis.py`: runs
the deepchecks condition `max_number_of_pairs_above_threshold(threshold,
n_pairs=0)` on the transformed training data and raises a `ValueError` when
the condition fails, i.e. exactly when the number of pairs above the
threshold is nonzero. -/
noncomputable def validate_feature_correlations
    (scaled_train : List (List ℚ)) (t : ℝ) : Except String Unit :=
  if 0 < violationCount scaled_train t then
    Except.error
      "Feature-feature correlation exceeds the maximum acceptable threshold."
  else Except.ok ()

/-- The final try/except block of `main` (lines 140-146 of
`src/correlation_analysis.py`).  The call
`validate_feature_correlations(scaled_train, threshold_feature_feature)`
inside the `try` block is commented out in the source, so the block runs no
check, always echoes "All feature-feature correlation checks passed.", and
never reaches the `except ValueError` branch. -/
def mainValidationStep (scaled_train : List (List ℚ)) (t : ℝ) : RunStatus :=
  match (Except.ok () : Except String Unit) with
  | Except.ok _ => RunStatus.passed
  | Except.error e => RunStatus.failedValidation e

/-- C1 counterexample: on the concrete transformed training data
`[[0, 1], [0, 1]]` (two identical columns, hence one pair with absolute
correlation `1 > 0.92`) and the default threshold `0.92`, the number of
violating feature pairs is nonzero, yet `main` still reports the
"all checks passed" status and does not fail: the claimed validation
failure does not occur because the validation call is commented out. -/
theorem correlation_violation_still_reports_passed :
    0 < violationCount [[(0 : ℚ), 1], [(0 : ℚ), 1]] (92 / 100 : ℝ) ∧
    mainValidationStep [[(0 : ℚ), 1], [(0 : ℚ), 1]] (92 / 100 : ℝ) =
      RunStatus.passed := by
  constructor
  · have hpos : 0 < centeredDot [(0 : ℚ), 1] [(0 : ℚ), 1] := by
      norm_num [centeredDot, listMean]
    have h1 : pearsonCorr [(0 : ℚ), 1] [(0 : ℚ), 1] = 1 :=
      pearsonCorr_self hpos
    have hcp : columnPairs [[(0 : ℚ), 1], [(0 : ℚ), 1]] =
        [([(0 : ℚ), 1], [(0 : ℚ), 1])] := rfl
    rw [violationCount, hcp, List.countP_cons, List.countP_nil]
    have hcond : (92 / 100 : ℝ) <
        |pearsonCorr [(0 : ℚ), 1] [(0 : ℚ), 1]| := by
      rw [h1, abs_one]
      norm_num
    simp only [decide_eq_true_eq]
    rw [if_pos hcond]
    omega
  · rfl

/-- C1 amended: the correlation-policy enforcement is disabled in the active
control path.  For every input, `main` reports the "all checks passed"
status regardless of the number of feature pairs whose absolute correlation
exceeds the threshold; the `validate_feature_correlations` function itself,
were it called, would succeed exactly when that number is zero. -/
theorem correlation_validation_call_disabled (scaled_train : List (List ℚ))
    (t : ℝ) :
    mainValidationStep scaled_train t = RunStatus.passed ∧
    (validate_feature_correlations scaled_train t = Except.ok () ↔
      violationCount scaled_train t = 0) := by
  refine ⟨rfl, ?_⟩
  unfold validate_feature_correlations
  by_cases h : 0 < violationCount scaled_train t
  · rw [if_pos h]
    exact iff_of_false (fun he => Except.noConfusion he) (by omega)
  · rw [if_neg h]
    exact iff_of_true rfl (by omega)

/-! ## One-hot encoding of binary columns (claim C8)

`preprocess_data` applies `OneHotEncoder(handle_unknown="ignore",
sparse_output=False, drop='if_binary', dtype=int)` to the binary columns. -/

/-- `OneHotEncoder.fit` on one column: the sorted distinct observed
categories. -/
def fitOneHotCategories (train : List ℤ) : List ℤ :=
  sortedUnique train

/-- `OneHotEncoder.transform` of one value: one 0/1 indicator per fitted
category.  `handle_unknown="ignore"` makes a category unseen at fit time
encode as all zeros instead of raising; `drop='if_binary'` drops the first
category's indicator exactly when there are two categories. -/
def encodeOneHot (cats : List ℤ) (x : ℤ) : List ℤ :=
  let full := cats.map fun c => if x = c then (1 : ℤ) else 0
  if cats.length = 2 then full.tail else full

/-- The encoded output column(s) for one binary input column: fit on the
training column, transform an arbitrary column with the fitted categories. -/
def encodeBinaryColumn (train col : List ℤ) : List (List ℤ) :=
  col.map (encodeOneHot (fitOneHotCategories train))

/-- C8: for every binary input column with exactly two observed categories in
the training data, the encoder emits exactly one 0/1 output column (one
level dropped), not two; and a category unseen at fit time maps to all-zero
at transform time (the transform is total — no error is raised). -/
theorem binary_onehot_single_column (train col : List ℤ)
    (h2 : (fitOneHotCategories train).length = 2) :
    (∀ row ∈ encodeBinaryColumn train col,
      row.length = 1 ∧ ∀ v ∈ row, v = 0 ∨ v = 1) ∧
    (∀ x : ℤ, x ∉ train →
      ∀ v ∈ encodeOneHot (fitOneHotCategories train) x, v = 0) := by
  obtain ⟨a, b, hab⟩ := List.length_eq_two.1 h2
  have henc : ∀ x : ℤ, encodeOneHot (fitOneHotCategories train) x =
      [if x = b then (1 : ℤ) else 0] := by
    intro x
    rw [encodeOneHot, hab]
    rfl
  constructor
  · intro row hrow
    rcases List.mem_map.1 hrow with ⟨x, _, rfl⟩
    rw [henc x]
    refine ⟨rfl, ?_⟩
    intro v hv
    rcases List.mem_singleton.1 hv with rfl
    split
    · exact Or.inr rfl
    · exact Or.inl rfl
  · intro x hx v hv
    rw [henc x] at hv
    rcases List.mem_singleton.1 hv with rfl
    have hbmem : b ∈ train := by
      have : b ∈ fitOneHotCategories train := by
        rw [hab]; exact List.mem_cons_of_mem a (List.mem_singleton.2 rfl)
      exact mem_sortedUnique.1 this
    have hxb : x ≠ b := fun h => hx (h ▸ hbmem)
    rw [if_neg hxb]

/-- C8 witness: a training column observing both categories `0` and `1`, a
column to transform, and the unseen category `5` mapping to all-zero. -/
theorem binary_onehot_single_column_witness :
    (fitOneHotCategories [0, 1]).length = 2 ∧
    (∀ row ∈ encodeBinaryColumn [0, 1] [1, 0, 1],
      row.length = 1 ∧ ∀ v ∈ row, v = 0 ∨ v = 1) ∧
    (∀ v ∈ encodeOneHot (fitOneHotCategories [0, 1]) 5, v = 0) :=
  ⟨by decide,
    (binary_onehot_single_column [0, 1] [1, 0, 1] (by decide)).1,
    (binary_onehot_single_column [0, 1] [1, 0, 1] (by decide)).2 5
      (by decide)⟩

/-! ## Standardization of numeric columns (claim C9)

`preprocess_data` fits `StandardScaler()` on the training data only
(`preprocessor.fit(train_df)`) and transforms both frames with the fitted
parameters (`preprocessor.transform(train_df)`,
`preprocessor.transform(test_df)`). -/

/-- `StandardScaler.fit` on one numeric training column: the training mean
and the training population variance (`ddof = 0`). -/
def fitStandardScaler (train : List ℚ) : ℚ × ℚ :=
  (listMean train, listMean (train.map fun v => (v - listMean train) ^ 2))

/-- `StandardScaler.transform` of one value with fitted statistics
`(mean, variance)`: subtract the mean, divide by the scale
`sqrt(variance)` — with scikit-learn's guard replacing a zero scale by
one. -/
noncomputable def scaleValue (stats : ℚ × ℚ) (x : ℚ) : ℝ :=
  ((x : ℝ) - (stats.1 : ℝ)) /
    (if stats.2 = 0 then 1 else Real.sqrt (stats.2 : ℝ))

/-- The numeric part of `preprocess_data`: fit on the training column only,
transform both the training and the test column with the train-fitted
statistics. -/
noncomputable def preprocessNumericColumn (train test : List ℚ) :
    List ℝ × List ℝ :=
  (train.map (scaleValue (fitStandardScaler train)),
    test.map (scaleValue (fitStandardScaler train)))

/-- C9: the transformed test column is exactly the test column mapped
through the transform parametrized by the train-fitted mean and variance,
and the transformed value at any test position depends only on the value at
that position and the training data — replacing the rest of the test data
leaves it unchanged (the test data is never refit). -/
theorem scaler_uses_train_statistics_only (train test : List ℚ) :
    (preprocessNumericColumn train test).2 =
      test.map (scaleValue (fitStandardScaler train)) ∧
    ∀ (test₂ : List ℚ) (i : ℕ), test[i]? = test₂[i]? →
      (preprocessNumericColumn train test).2[i]? =
        (preprocessNumericColumn train test₂).2[i]? := by
  refine ⟨rfl, ?_⟩
  intro test₂ i h
  show (test.map (scaleValue (fitStandardScaler train)))[i]? =
    (test₂.map (scaleValue (fitStandardScaler train)))[i]?
  rw [List.getElem?_map, List.getElem?_map, h]

/-- C9 witness: two test columns agreeing at position 0 receive the same
standardized value there, under the train statistics of `[1, 2]`. -/
theorem scaler_uses_train_statistics_only_witness :
    (([5] : List ℚ)[0]? = ([5, 7] : List ℚ)[0]?) ∧
    (preprocessNumericColumn [1, 2] [5]).2[0]? =
      (preprocessNumericColumn [1, 2] [5, 7]).2[0]? :=
  ⟨rfl, (scaler_uses_train_statistics_only [1, 2] [5]).2 [5, 7] 0 rfl⟩

/-! ## In-place mutation of the caller frames (claim C10)

Lines 30-31 of `src/correlation_analysis.py` execute
`train_df[binary_columns] = train_df[binary_columns].astype(bool)` (and the
same for `test_df`): an in-place update of the caller's frames. -/

/-- A pandas cell: an integer cell, or a boolean cell after
`astype(bool)`. -/
inductive CellValue where
  | intCell (n : ℤ)
  | boolCell (b : Bool)
deriving DecidableEq

/-- The cast performed cell-wise by `astype(bool)`: an integer becomes its
truthiness, a boolean stays itself. -/
def CellValue.astypeBool : CellValue → CellValue
  | CellValue.intCell n => CellValue.boolCell (decide (n ≠ 0))
  | CellValue.boolCell b => CellValue.boolCell b

/-- Whether a cell carries the boolean dtype. -/
def CellValue.isBool : CellValue → Bool
  | CellValue.boolCell _ => true
  | CellValue.intCell _ => false

/-- A data frame: named columns of cells. -/
abbrev DataFrame := List (String × List CellValue)

/-- Column access `df[name]` (the first column with that name). -/
def colLookup (df : DataFrame) (name : String) : Option (List CellValue) :=
  (df.find? fun c => c.1 == name).map Prod.snd

/-- The in-place assignment
`df[binary_columns] = df[binary_columns].astype(bool)`: every column whose
name is listed is cast cell-wise to boolean; every other column is left
untouched. -/
def astypeBoolColumns (df : DataFrame) (binaryColumns : List String) :
    DataFrame :=
  df.map fun c =>
    if c.1 ∈ binaryColumns then (c.1, c.2.map CellValue.astypeBool) else c

/-- The effect of `preprocess_data` on the frames owned by its caller: both
`train_df` and `test_df` come back with their binary columns cast. -/
def preprocess_data_frame_effect (train_df test_df : DataFrame)
    (binaryColumns : List String) : DataFrame × DataFrame :=
  (astypeBoolColumns train_df binaryColumns,
    astypeBoolColumns test_df binaryColumns)

lemma astypeBool_isBool (v : CellValue) : v.astypeBool.isBool = true := by
  cases v <;> rfl

lemma colLookup_astypeBool_of_not_mem {name : String} {bins : List String}
    (hname : name ∉ bins) :
    ∀ df : DataFrame, colLookup (astypeBoolColumns df bins) name =
      colLookup df name := by
  intro df
  induction df with
  | nil => rfl
  | cons c df ih =>
      show colLookup ((if c.1 ∈ bins then
        (c.1, c.2.map CellValue.astypeBool) else c) :: astypeBoolColumns df bins)
          name = colLookup (c :: df) name
      by_cases hkey : c.1 = name
      · have hc : c.1 ∉ bins := fun h => hname (hkey ▸ h)
        rw [if_neg hc]
        unfold colLookup
        rw [List.find?_cons_of_pos _ (by simp [hkey]),
          List.find?_cons_of_pos _ (by simp [hkey])]
      · have hfalse : (fun x : String × List CellValue => x.1 == name)
            (if c.1 ∈ bins then (c.1, c.2.map CellValue.astypeBool) else c) =
              false := by
          split <;> simp [hkey]
        unfold colLookup
        rw [List.find?_cons_of_neg _ (by simp [hfalse]),
          List.find?_cons_of_neg _ (by simp [hkey])]
        exact ih

lemma colLookup_astypeBool_of_mem {name : String} {bins : List String}
    (hname : name ∈ bins) :
    ∀ df : DataFrame, colLookup (astypeBoolColumns df bins) name =
      (colLookup df name).map (List.map CellValue.astypeBool) := by
  intro df
  induction df with
  | nil => rfl
  | cons c df ih =>
      show colLookup ((if c.1 ∈ bins then
        (c.1, c.2.map CellValue.astypeBool) else c) :: astypeBoolColumns df bins)
          name = _
      by_cases hkey : c.1 = name
      · have hc : c.1 ∈ bins := hkey ▸ hname
        rw [if_pos hc]
        unfold colLookup
        rw [List.find?_cons_of_pos _ (by simp [hkey]),
          List.find?_cons_of_pos _ (by simp [hkey])]
        rfl
      · have hfalse : (fun x : String × List CellValue => x.1 == name)
            (if c.1 ∈ bins then (c.1, c.2.map CellValue.astypeBool) else c) =
              false := by
          split <;> simp [hkey]
        unfold colLookup
        rw [List.find?_cons_of_neg _ (by simp [hfalse]),
          List.find?_cons_of_neg _ (by simp [hkey])]
        exact ih

/-- C10: `preprocess_data` mutates its caller's frames in place — after the
call, every listed binary column of both `train_df` and `test_df` has been
replaced by its cell-wise boolean cast (so all of its cells carry the
boolean dtype), no other column of either frame is modified, and the effect
is observable: on a concrete frame the mutated frame differs from the
input, so the function is not pure over its arguments. -/
theorem preprocess_data_mutates_caller_frames (train_df test_df : DataFrame)
    (bins : List String) :
    (∀ name, name ∉ bins →
      colLookup (preprocess_data_frame_effect train_df test_df bins).1 name =
        colLookup train_df name ∧
      colLookup (preprocess_data_frame_effect train_df test_df bins).2 name =
        colLookup test_df name) ∧
    (∀ name, name ∈ bins →
      colLookup (preprocess_data_frame_effect train_df test_df bins).1 name =
        (colLookup train_df name).map (List.map CellValue.astypeBool) ∧
      colLookup (preprocess_data_frame_effect train_df test_df bins).2 name =
        (colLookup test_df name).map (List.map CellValue.astypeBool)) ∧
    (∀ name col, name ∈ bins →
      colLookup (preprocess_data_frame_effect train_df test_df bins).1 name =
        some col → ∀ v ∈ col, v.isBool = true) ∧
    astypeBoolColumns [("sex", [CellValue.intCell 1])] ["sex"] ≠
      [("sex", [CellValue.intCell 1])] := by
  refine ⟨?_, ?_, ?_, by decide⟩
  · intro name hname
    exact ⟨colLookup_astypeBool_of_not_mem hname train_df,
      colLookup_astypeBool_of_not_mem hname test_df⟩
  · intro name hname
    exact ⟨colLookup_astypeBool_of_mem hname train_df,
      colLookup_astypeBool_of_mem hname test_df⟩
  · intro name col hname hcol
    rw [show (preprocess_data_frame_effect train_df test_df bins).1 =
        astypeBoolColumns train_df bins from rfl,
      colLookup_astypeBool_of_mem hname train_df] at hcol
    rcases Option.map_eq_some'.1 hcol with ⟨col₀, _, rfl⟩
    intro v hv
    rcases List.mem_map.1 hv with ⟨w, _, rfl⟩
    exact astypeBool_isBool w

/-- C10 witness: the mutation effect evaluated on concrete frames — the
unlisted column `age` is untouched, the listed column `sex` is cast to
boolean cells. -/
theorem preprocess_data_mutates_caller_frames_witness :
    (("age" : String) ∉ (["sex"] : List String) ∧
      colLookup (preprocess_data_frame_effect
        [("age", [CellValue.intCell 40]), ("sex", [CellValue.intCell 1])]
        [("sex", [CellValue.intCell 0])] ["sex"]).1 "age" =
        colLookup
          [("age", [CellValue.intCell 40]), ("sex", [CellValue.intCell 1])]
          "age") ∧
    (("sex" : String) ∈ (["sex"] : List String) ∧
      colLookup (preprocess_data_frame_effect
        [("age", [CellValue.intCell 40]), ("sex", [CellValue.intCell 1])]
        [("sex", [CellValue.intCell 0])] ["sex"]).2 "sex" =
        (colLookup [("sex", [CellValue.intCell 0])] "sex").map
          (List.map CellValue.astypeBool)) :=
  ⟨⟨by decide,
    ((preprocess_data_mutates_caller_frames
      [("age", [CellValue.intCell 40]), ("sex", [CellValue.intCell 1])]
      [("sex", [CellValue.intCell 0])] ["sex"]).1 "age" (by decide)).1⟩,
    ⟨by decide,
    ((preprocess_data_mutates_caller_frames
      [("age", [CellValue.intCell 40]), ("sex", [CellValue.intCell 1])]
      [("sex", [CellValue.intCell 0])] ["sex"]).2.1 "sex" (by decide)).2⟩⟩
